import Mathlib

/-!
Verification of the ui-regression-agent core against its specification.

The Python sources are shallowly embedded:
* `Json` and `jsonParse` model the values produced by Python's `json.loads`
  on the JSON fragment this code base exercises (objects, arrays, strings
  with the common escapes, integer numerals, `true`/`false`/`null`,
  whitespace); floats, `\u` escapes and leading-zero rejection are not
  modelled, and none of the inputs appearing in theorems use them.
* `mdSearch` and `braceSpan` model the two regex extraction strategies
  used verbatim in `image_diff_agent.py`, `classification_agent.py` and
  `difference_analyzer.py`.
* Tickets, the SQLite JIRA gateway (`mcp_servers/jira.py`) and the
  orchestrator (`src/orchestrator_agent.py`) are embedded as pure state
  passing over a backlog list.  The `created`/`updated` timestamp columns
  are abstracted away (every write stamps the wall clock, which carries no
  information for the properties below).
-/

namespace UIRA

/-- A parsed JSON value, as produced by `json.loads`.  Numbers are modelled
as integers; no claim below involves fractional numerals. -/
inductive Json where
  | null
  | bool (b : Bool)
  | num (n : Int)
  | str (s : String)
  | arr (xs : List Json)
  | obj (kvs : List (String × Json))

/-- The whitespace characters of JSON and of `\s` that occur in model
responses. -/
def wsChars : List Char := [' ', '\n', '\t', '\r']

/-- JSON / `re` whitespace (the subset that occurs in model responses). -/
def isWs (c : Char) : Bool := wsChars.contains c

/-- Drop leading whitespace, as both `json.loads` and `\s*` do. -/
def skipWs (l : List Char) : List Char := l.dropWhile isWs

/-- The escape table of string literals (`\b`, `\f`, `\uXXXX` unmodelled;
no input below uses them). -/
def escPairs : List (Char × Char) :=
  [('"', '"'), ('\\', '\\'), ('/', '/'), ('n', '\n'), ('t', '\t'), ('r', '\r')]

/-- Escape decoding for string literals. -/
def escChar (c : Char) : Option Char :=
  (escPairs.find? fun p => p.1 == c).map fun p => p.2

/-- Parse the body of a JSON string literal after the opening quote. -/
def parseStrLit (acc : List Char) : List Char → Option (String × List Char)
  | '"' :: rest => some (String.mk acc.reverse, rest)
  | '\\' :: e :: rest =>
    match escChar e with
    | some ch => parseStrLit (ch :: acc) rest
    | none => none
  | c :: rest => parseStrLit (c :: acc) rest
  | [] => none

/-- Digit run splitter for numerals. -/
def takeDigits : List Char → List Char × List Char
  | c :: rest =>
    if c.isDigit then
      let (ds, r) := takeDigits rest
      (c :: ds, r)
    else ([], c :: rest)
  | [] => ([], [])

/-- Decimal value of a digit run. -/
def digitsVal (ds : List Char) : Nat :=
  ds.foldl (fun a c => a * 10 + (c.toNat - 48)) 0

/-- Work items of the single fueled parsing loop: a value, the tail of an
array, or the tail of an object. -/
inductive PTask where
  | val
  | elems (acc : List Json)
  | members (acc : List (String × Json))

/-- One fueled recursive-descent loop for `json.loads`.  Fuel only bounds
the recursion; `jsonParse` supplies more than the input can consume. -/
def parseGo : Nat → PTask → List Char → Option (Json × List Char)
  | 0, _, _ => none
  | f + 1, .val, l =>
    match skipWs l with
    | [] => none
    | c :: rest =>
      if c == '{' then
        match skipWs rest with
        | '}' :: r2 => some (.obj [], r2)
        | r2 => parseGo f (.members []) r2
      else if c == '[' then
        match skipWs rest with
        | ']' :: r2 => some (.arr [], r2)
        | r2 => parseGo f (.elems []) r2
      else if c == '"' then
        match parseStrLit [] rest with
        | some (s, r) => some (.str s, r)
        | none => none
      else if c == 't' then
        match rest with
        | 'r' :: 'u' :: 'e' :: r => some (.bool true, r)
        | _ => none
      else if c == 'f' then
        match rest with
        | 'a' :: 'l' :: 's' :: 'e' :: r => some (.bool false, r)
        | _ => none
      else if c == 'n' then
        match rest with
        | 'u' :: 'l' :: 'l' :: r => some (.null, r)
        | _ => none
      else if c == '-' then
        match takeDigits rest with
        | ([], _) => none
        | (ds, r) => some (.num (-(digitsVal ds : Int)), r)
      else if c.isDigit then
        match takeDigits (c :: rest) with
        | (ds, r) => some (.num (digitsVal ds : Int), r)
      else none
  | f + 1, .elems acc, l =>
    match parseGo f .val l with
    | some (v, r) =>
      (match skipWs r with
       | ',' :: r2 => parseGo f (.elems (acc ++ [v])) r2
       | ']' :: r2 => some (.arr (acc ++ [v]), r2)
       | _ => none)
    | none => none
  | f + 1, .members acc, l =>
    match skipWs l with
    | '"' :: rest =>
      (match parseStrLit [] rest with
       | some (k, r1) =>
         (match skipWs r1 with
          | ':' :: r2 =>
            (match parseGo f .val r2 with
             | some (v, r3) =>
               (match skipWs r3 with
                | ',' :: r4 => parseGo f (.members (acc ++ [(k, v)])) r4
                | '}' :: r4 => some (.obj (acc ++ [(k, v)]), r4)
                | _ => none)
             | none => none)
          | _ => none)
       | none => none)
    | _ => none

/-- Model of `json.loads`: parse one value and require only whitespace to
remain, else fail. -/
def jsonParse (s : String) : Option Json :=
  match parseGo (2 * s.data.length + 8) .val s.data with
  | some (v, r) => if skipWs r = [] then some v else none
  | none => none

/-- The backquote character (used to state no-code-fence side conditions). -/
def backquoteChar : Char := Char.ofNat 96

/-- The literal `\x60\x60\x60` fence marker. -/
def fenceTriple : List Char := "```".data

/-- The literal `\x60\x60\x60json` tag opening a fenced block. -/
def fenceTag : List Char := "```json".data

/-- After a candidate closing brace, the pattern `\s*\x60\x60\x60` must
match for `re.search("\x60\x60\x60json\\s*(\\\x7b.*?\\\x7d)\\s*\x60\x60\x60", ..., re.DOTALL)`
to succeed there. -/
def wsThenFence (l : List Char) : Bool :=
  fenceTriple.isPrefixOf (skipWs l)

/-- Scan for the lazy closing brace of the fenced-block group: the first
`\x7d` whose tail is whitespace followed by a closing fence ends the group. -/
def findClose (acc : List Char) : List Char → Option (List Char)
  | [] => none
  | c :: rest =>
    if c == '}' && wsThenFence rest then
      some ('{' :: (acc.reverse ++ ['}']))
    else findClose (c :: acc) rest

/-- Model of `re.search(r"\x60\x60\x60json\s*(\\\x7b.*?\\\x7d)\s*\x60\x60\x60", text, re.DOTALL)`,
returning group 1 of the leftmost match: at each start position the literal
tag, then greedy whitespace, must be followed by `\x7b`; the lazy group ends at
the first `\x7d` that `\s*\x60\x60\x60` can follow; on failure the engine
retries from the next position. -/
def mdSearch : List Char → Option (List Char)
  | [] => none
  | c :: rest =>
    if fenceTag.isPrefixOf (c :: rest) then
      match skipWs ((c :: rest).drop 7) with
      | '{' :: body =>
        (match findClose [] body with
         | some g => some g
         | none => mdSearch rest)
      | _ => mdSearch rest
    else mdSearch rest

/-- Model of `re.search(r"\\\x7b.*\\\x7d", text, re.DOTALL)`: with a greedy
`.*`, the match runs from the first `\x7b` to the last `\x7d` after it. -/
def braceSpan (l : List Char) : Option (List Char) :=
  match l.dropWhile (fun c => !(c == '{')) with
  | [] => none
  | c :: rest =>
    match rest.reverse.dropWhile (fun c => !(c == '}')) with
    | [] => none
    | r => some (c :: r.reverse)

/-- The three-strategy extraction chain shared verbatim by
`classification_agent.analyze_differences` (lines 73-108) and
`difference_analyzer.analyze_differences` (lines 106-133): direct
`json.loads`, then the fenced-block regex, then the greedy brace regex;
`none` models falling through to the failure branch. -/
def extractJson (resp : String) : Option Json :=
  match jsonParse resp with
  | some v => some v
  | none =>
    match mdSearch resp.data with
    | some g =>
      (match jsonParse (String.mk g) with
       | some v => some v
       | none =>
         match braceSpan resp.data with
         | some g2 => jsonParse (String.mk g2)
         | none => none)
    | none =>
      match braceSpan resp.data with
      | some g2 => jsonParse (String.mk g2)
      | none => none

/-- A backlog row of the `jira_tickets` table (`mcp_servers/jira.py`).
The `created`/`updated` timestamp columns are abstracted away. -/
structure Ticket where
  id : String
  title : String := ""
  description : String := ""
  status : String := ""
  priority : String := ""
  type : String := ""
  assignee : String := ""
  reporter : String := ""
  comment : Option String := none
deriving DecidableEq, Repr

/-- The persisted ticket collection. -/
abbrev Backlog := List Ticket

/-- Decimal digits of `n`, least significant first (`[]` for zero);
the first argument is recursion fuel, supplied as `n + 1` by `digitsOf`. -/
def natDigitsRev (fuel n : Nat) : List Nat :=
  match fuel with
  | 0 => []
  | f + 1 => if n = 0 then [] else n % 10 :: natDigitsRev f (n / 10)

/-- Decimal digits of `n`, least significant first. -/
def digitsOf (n : Nat) : List Nat := natDigitsRev (n + 1) n

/-- Render one decimal digit. -/
def charOfDigit (d : Nat) : Char := Char.ofNat (48 + d)

/-- The digit characters of Python's `f"\x7bk:03d\x7d"`: decimal digits
left-padded with zeros to width 3. -/
def padChars (k : Nat) : List Char :=
  ((digitsOf k ++ List.replicate (3 - (digitsOf k).length) 0).reverse).map charOfDigit

/-- The ticket id `f"UI-\x7bk:03d\x7d"`. -/
def uiId (k : Nat) : String := "UI-" ++ String.mk (padChars k)

/-- The SQL predicate `id LIKE 'UI-%'`. -/
def isUIId (s : String) : Bool := "UI-".data.isPrefixOf s.data

/-- `SELECT COUNT(*) FROM jira_tickets WHERE id LIKE 'UI-%'`. -/
def uiCount (b : Backlog) : Nat := (List.filter (fun t => isUIId t.id) b).length

/-- The id `create_ticket` computes (`mcp_servers/jira.py` lines 257-261):
the count of `UI-` tickets plus one, zero-padded — not the maximum existing
numeric suffix plus one. -/
def nextTicketId (b : Backlog) : String := uiId (uiCount b + 1)

/-- The gateway's ticket-creation response: `\x7b"success": True, "ticket": ...\x7d`
or `\x7b"success": False, "error": ...\x7d`.  Both dicts are nonempty, hence
truthy in Python. -/
inductive CreateResult where
  | ok (ticket : Ticket)
  | err (msg : String)
deriving DecidableEq, Repr

/-- `create_ticket` of `mcp_servers/jira.py` (lines 242-305): compute the
count-derived id, INSERT the row, return the success dict.  The repo does
not contain the table schema (`scripts/` is absent), so the INSERT is
modelled as a plain append; the claims below only use the computed id. -/
def create_ticket (b : Backlog)
    (title description priority ticket_type assignee reporter status : String)
    (comment : Option String) : Backlog × CreateResult :=
  let t : Ticket :=
    { id := nextTicketId b, title := title, description := description,
      status := status, priority := priority, type := ticket_type,
      assignee := assignee, reporter := reporter, comment := comment }
  (b ++ [t], .ok t)

/-- The gateway's status-update response dict.  Both outcomes are nonempty
Python dicts, hence truthy. -/
inductive UpdateResult where
  | ok (ticket_id new_status : String)
  | err (msg : String)
deriving DecidableEq, Repr

/-- `UPDATE jira_tickets SET status = ? WHERE id = ?`: every row with the
id gets the new status, other rows are untouched. -/
def setStatus (tid st : String) (b : Backlog) : Backlog :=
  b.map fun t => if t.id = tid then { t with status := st } else t

/-- `update_ticket_status` of `mcp_servers/jira.py` (lines 133-166): check
existence by SELECT, then UPDATE; the new status string is stored verbatim,
with no validation against any status enum. -/
def update_ticket_status (b : Backlog) (ticket_id new_status : String) :
    Backlog × UpdateResult :=
  if b.any (fun t => t.id == ticket_id) then
    (setStatus ticket_id new_status b, .ok ticket_id new_status)
  else
    (b, .err ("Ticket " ++ ticket_id ++ " not found"))

/-- A `\x7b"ticket_id": ..., "reason": ...\x7d` entry of the analysis dict. -/
structure TicketEntry where
  ticket_id : Option String := none
  reason : Option String := none
deriving DecidableEq, Repr

/-- Python truthiness of `resolved.get("ticket_id")`: a missing key and the
empty string are both falsy. -/
def truthyStr : Option String → Option String
  | some s => if s = "" then none else some s
  | none => none

/-- A `new_issues` entry; absent keys are `none`. -/
structure NewIssue where
  severity : Option String := none
  title : Option String := none
  description : Option String := none
  element_type : Option String := none
  location : Option String := none
deriving DecidableEq, Repr

/-- `update_resolved_tickets` of `src/orchestrator_agent.py` (lines 14-39):
skip entries with a falsy ticket id; otherwise call the gateway with status
`"Done"`.  The `if updated_ticket:` guard is always true — both gateway
outcomes are nonempty dicts — so every result, including the not-found
error dict, is appended to the returned list, and the `else` warning branch
is dead code. -/
def update_resolved_tickets : List TicketEntry → Backlog → List UpdateResult × Backlog
  | [], b => ([], b)
  | e :: rest, b =>
    match truthyStr e.ticket_id with
    | none => update_resolved_tickets rest b
    | some tid =>
      let s1 := update_ticket_status b tid "Done"
      let s2 := update_resolved_tickets rest s1.1
      (s1.2 :: s2.1, s2.2)

/-- `update_tickets_needing_work` of `src/orchestrator_agent.py`
(lines 41-66): identical loop, writing the status string
`"Changes Requested"`; no comment is ever attached (the gateway's
`update_ticket_comment` has no caller in the orchestrator). -/
def update_tickets_needing_work : List TicketEntry → Backlog → List UpdateResult × Backlog
  | [], b => ([], b)
  | e :: rest, b =>
    match truthyStr e.ticket_id with
    | none => update_tickets_needing_work rest b
    | some tid =>
      let s1 := update_ticket_status b tid "Changes Requested"
      let s2 := update_tickets_needing_work rest s1.1
      (s1.2 :: s2.1, s2.2)

/-- The Python exception escaping `create_tickets_for_critical_issues`. -/
inductive PyErr where
  | keyError
deriving DecidableEq, Repr

/-- `create_tickets_for_critical_issues` of `src/orchestrator_agent.py`
(lines 68-105): only `severity == "critical"` entries create a ticket.  The
gateway returns `\x7b"success": ..., "ticket"/"error": ...\x7d`, which has no
`"id"` key, yet line 98 logs `f"Created JIRA ticket: \x7bnew_ticket['id']\x7d"`;
that f-string raises `KeyError` on the first critical issue, after the row
was inserted.  Hence the ok outcome is reached only when no issue is
critical, and then no ticket was created. -/
def create_tickets_for_critical_issues :
    List NewIssue → Backlog → Backlog × Except PyErr (List CreateResult)
  | [], b => (b, .ok [])
  | i :: rest, b =>
    if i.severity = some "critical" then
      let s1 := create_ticket b (i.title.getD "UI Regression Issue")
        (i.description.getD "Critical UI issue detected during regression testing")
        "High" "Bug" "auto.assigned@company.com" "ui.regression.agent@company.com"
        "Open" none
      (s1.1, .error .keyError)
    else create_tickets_for_critical_issues rest b

/-- A record written to the local `minor_issues.json` log. -/
structure MinorEntry where
  title : String
  description : String
  element_type : String
  location : String
  severity : String
deriving DecidableEq, Repr

/-- `log_minor_issues` of `src/orchestrator_agent.py` (lines 107-130): only
`severity == "minor"` entries are written to the local log, with the
defaults of the source. -/
def minorEntries (issues : List NewIssue) : List MinorEntry :=
  (issues.filter fun i => i.severity = some "minor").map fun i =>
    { title := i.title.getD "Minor UI Issue",
      description := i.description.getD "Minor issue detected",
      element_type := i.element_type.getD "unknown",
      location := i.location.getD "unknown",
      severity := "minor" }

/-- The analysis dict, with every key observed across producers and
consumers: the classification contract and the repo's test suite populate
`resolved_tickets` / `pending_tickets` / `new_tickets`, while
`execute_actions` reads only `resolved_tickets`, `tickets_needing_work`
and `new_issues` via `.get`. -/
structure Analysis where
  resolved_tickets : List TicketEntry := []
  pending_tickets : List TicketEntry := []
  tickets_needing_work : List TicketEntry := []
  new_tickets : List NewIssue := []
  new_issues : List NewIssue := []
deriving DecidableEq, Repr

/-- The `results` dict assembled by `execute_actions`. -/
structure Results where
  resolved_tickets : List UpdateResult := []
  updated_tickets : List UpdateResult := []
  created_tickets : List CreateResult := []
  minor_issues_logged : Nat := 0
deriving DecidableEq, Repr

/-- The mutable world the orchestrator touches: the ticket store and the
local minor-issues log file. -/
structure ExecState where
  backlog : Backlog := []
  minorLog : List MinorEntry := []
deriving DecidableEq, Repr

/-- `execute_actions` of `src/orchestrator_agent.py` (lines 132-170); a
`none` outcome models the `KeyError` escaping from the critical-issue loop
(the results dict is lost, the completed mutations persist, and
`log_minor_issues` — which runs after ticket creation — never runs). -/
def execute_actions (st : ExecState) (a : Analysis) : ExecState × Option Results :=
  let rp := if a.resolved_tickets.isEmpty then ([], st.backlog)
            else update_resolved_tickets a.resolved_tickets st.backlog
  let up := if a.tickets_needing_work.isEmpty then ([], rp.2)
            else update_tickets_needing_work a.tickets_needing_work rp.2
  if a.new_issues.isEmpty then
    ({ backlog := up.2, minorLog := st.minorLog },
     some { resolved_tickets := rp.1, updated_tickets := up.1 })
  else
    match create_tickets_for_critical_issues a.new_issues up.2 with
    | (b3, .error _) => ({ backlog := b3, minorLog := st.minorLog }, none)
    | (b3, .ok created) =>
      ({ backlog := b3, minorLog := st.minorLog ++ minorEntries a.new_issues },
       some { resolved_tickets := rp.1, updated_tickets := up.1,
              created_tickets := created,
              minor_issues_logged :=
                (a.new_issues.filter fun i => i.severity = some "minor").length })

/-- `VALID_STATUSES` of `constants.py` (lines 12-19, 48). -/
def VALID_STATUSES : List String :=
  ["todo", "in_progress", "in_review", "on_hold", "done"]

/-- A Backlog/Model Gateway touch, in call order. -/
inductive GatewayCall where
  | getAllTickets
  | completeText
deriving DecidableEq, Repr

/-- `ValueError("Analysis response does not contain valid JSON")`, carrying
the raw response for reference. -/
inductive ClsError where
  | malformedResponse (raw : String)
deriving DecidableEq, Repr

/-- The dict returned by `ClassificationAgent.analyze_differences` when
there are no differences (lines 43-47). -/
def emptyPartitionJson : Json :=
  .obj [("resolved_tickets", .arr []), ("pending_tickets", .arr []),
        ("new_tickets", .arr [])]

namespace ClassificationAgent

/-- `analyze_differences` of `src/classification_agent.py` (lines 37-119).
The prompt build and `complete_text` are abstracted into `model`, a
function of the `UI-`-filtered tickets it is shown; the returned trace
records the gateway touches in order.  This path has no error-sentinel
check: whatever JSON the chain recovers is returned as data. -/
def analyze_differences (differences : List Json) (backlog : Backlog)
    (model : Backlog → String) : Except ClsError Json × List GatewayCall :=
  if differences.isEmpty then (.ok emptyPartitionJson, [])
  else
    let jira_tickets := List.filter (fun t => isUIId t.id) backlog
    let response_text := model jira_tickets
    (match extractJson response_text with
     | some v => .ok v
     | none => .error (.malformedResponse response_text),
     [.getAllTickets, .completeText])

end ClassificationAgent

/-- `_create_mock_analysis_response` of `src/difference_analyzer.py`
(lines 31-68), transcribed verbatim. -/
def mockAnalysisResponse : Json :=
  .obj
    [("resolved_tickets", .arr
       [.obj [("ticket_id", .str "UI-002"), ("difference_id", .num 1),
              ("reason", .str "Password field correctly implemented with eye icon toggle")]]),
     ("tickets_needing_work", .arr
       [.obj [("ticket_id", .str "UI-004"), ("difference_id", .num 3),
              ("reason", .str "Header added but About link not positioned on extreme right"),
              ("expected", .str "About link should be on extreme right of header"),
              ("actual", .str "About link positioned next to Home link")]]),
     ("new_issues", .arr
       [.obj [("difference_id", .num 0), ("severity", .str "minor"),
              ("title", .str "Forgot Password text missing question mark"),
              ("description", .str "The \x27Forgot Password\x27 link text is missing the question mark that was expected"),
              ("element_type", .str "text"),
              ("location", .str "Below password input field")],
        .obj [("difference_id", .num 2), ("severity", .str "critical"),
              ("title", .str "Register button text changed unexpectedly"),
              ("description", .str "Register button text changed to \x27Sign Up\x27 without corresponding JIRA ticket"),
              ("element_type", .str "button"),
              ("location", .str "Bottom of login form")]])]

/-- The empty dict `DifferenceAnalyzer.analyze_differences` returns for no
differences (lines 74-79) — note its key set differs from the
classification agent's. -/
def emptyDAPartition : Json :=
  .obj [("resolved_tickets", .arr []), ("tickets_needing_work", .arr []),
        ("new_issues", .arr [])]

namespace DifferenceAnalyzer

/-- `analyze_differences` of `src/difference_analyzer.py` (lines 70-140).
Total by construction: the no-API-key branch (line 87), the exhausted
parse chain (line 136) and the outer exception handler (line 140) all
return the canned mock partition instead of raising. -/
def analyze_differences (differences : List Json) (hasApiKey : Bool)
    (backlog : Backlog) (model : Backlog → String) : Json :=
  if differences.isEmpty then emptyDAPartition
  else if !hasApiKey then mockAnalysisResponse
  else
    match extractJson (model backlog) with
    | some v => v
    | none => mockAnalysisResponse

end DifferenceAnalyzer

/-- The failures `compare_screenshots` can raise: the three sentinel
`ValueError`s of lines 60-65, the `TypeError` from running `"error" in x`
or `x["error"]` on non-dict data, and the final
`ValueError("LLM response does not contain valid JSON")`. -/
inductive DiffError where
  | tooSimilar
  | invalidImageType
  | llmError (code : Json)
  | typeError
  | malformed (raw : String)

/-- Key lookup in a parsed object.  `json.loads` deduplicates repeated
keys keeping the last, so the last binding wins. -/
def lookupKey (kvs : List (String × Json)) (k : String) : Option Json :=
  kvs.foldl (fun acc p => if p.1 = k then some p.2 else acc) none

/-- Substring test on character lists (Python's `in` on strings). -/
def containsSub (p : List Char) : List Char → Bool
  | [] => p.isEmpty
  | c :: rest => p.isPrefixOf (c :: rest) || containsSub p rest

/-- The `if "error" in differences_data:` check of `image_diff_agent.py`
(lines 58-65, repeated at 84-91 and 106-113), including Python's
membership semantics on each shape: key lookup on dicts, element equality
on lists, substring on strings, `TypeError` otherwise (and on the
subsequent `data["error"]` for lists and strings). -/
def checkSentinel (v : Json) : Except DiffError Json :=
  match v with
  | .obj kvs =>
    if kvs.any (fun p => p.1 == "error") then
      match lookupKey kvs "error" with
      | some (.str c) =>
        if c = "IMAGES_TOO_SIMILAR" then .error .tooSimilar
        else if c = "INVALID_IMAGE_TYPE" then .error .invalidImageType
        else .error (.llmError (.str c))
      | some j => .error (.llmError j)
      | none => .ok v
    else .ok v
  | .arr xs =>
    if xs.any (fun x => match x with | .str s => s == "error" | _ => false) then
      .error .typeError
    else .ok v
  | .str s =>
    if containsSub "error".data s.data then .error .typeError else .ok v
  | _ => .error .typeError

namespace ImageDiffAgent

/-- `compare_screenshots` of `src/image_diff_agent.py` (lines 33-126), with
the vision call abstracted to its response text: the same three-strategy
extraction chain, but every successful parse is passed through the
error-sentinel check before being returned. -/
def compare_screenshots (response_text : String) : Except DiffError Json :=
  match jsonParse response_text with
  | some v => checkSentinel v
  | none =>
    match mdSearch response_text.data with
    | some g =>
      (match jsonParse (String.mk g) with
       | some v => checkSentinel v
       | none =>
         match braceSpan response_text.data with
         | some g2 =>
           (match jsonParse (String.mk g2) with
            | some v => checkSentinel v
            | none => .error (.malformed response_text))
         | none => .error (.malformed response_text))
    | none =>
      match braceSpan response_text.data with
      | some g2 =>
        (match jsonParse (String.mk g2) with
         | some v => checkSentinel v
         | none => .error (.malformed response_text))
      | none => .error (.malformed response_text)

end ImageDiffAgent

/-- The status writes a ticket-entry list induces: a `(ticket id, status)`
pair per entry with a truthy id. -/
def entryWrites (st : String) (entries : List TicketEntry) : List (String × String) :=
  entries.filterMap fun e => (truthyStr e.ticket_id).map fun tid => (tid, st)

/-- Replay a write list over the backlog, left to right. -/
def statusWrites (ws : List (String × String)) (b : Backlog) : Backlog :=
  ws.foldl (fun b w => setStatus w.1 w.2 b) b

/-- The status a ticket with id `tid` and current status `s` holds after a
write list: the last matching write wins. -/
def statusAfter (ws : List (String × String)) (tid : String) (s : String) : String :=
  ws.foldl (fun s w => if w.1 = tid then w.2 else s) s

/-- Value of a least-significant-first digit list (used to invert
`digitsOf` and obtain injectivity of the padded rendering). -/
def valOf (l : List Nat) : Nat := l.foldr (fun d acc => d + 10 * acc) 0

/-- Backlog fixture: the pre-seeded login-page ticket. -/
def ticketUI1 : Ticket :=
  { id := "UI-001", title := "Add new href \x27Forgot Password?\x27",
    status := "in_review", priority := "medium", type := "feature",
    assignee := "frontend.dev", reporter := "product.manager" }

/-- Backlog fixture: the header ticket, leaving the suffixes 2 and 3 as a
gap. -/
def ticketUI4 : Ticket :=
  { id := "UI-004", status := "in_review", type := "feature" }

/-- A backlog holding `UI-001` and `UI-004` with a gap in between. -/
def gapBacklog : Backlog := [ticketUI1, ticketUI4]

/-- A critical new issue, as classified for an unmatched difference. -/
def criticalIssue : NewIssue :=
  { severity := some "critical",
    title := some "Register button text changed unexpectedly",
    description := some "Register button text changed to \x27Sign Up\x27 without corresponding JIRA ticket" }

/-- An analysis whose only content is one critical new issue. -/
def criticalAnalysis : Analysis := { new_issues := [criticalIssue] }

/-- The upstream sentinel response for near-identical screenshots. -/
def sentinelResp : String := "\x7b\"error\": \"IMAGES_TOO_SIMILAR\"\x7d"

/-- The three-way mapping from sentinel codes to raised failures. -/
def sentinelFailure (code : String) : DiffError :=
  if code = "IMAGES_TOO_SIMILAR" then .tooSimilar
  else if code = "INVALID_IMAGE_TYPE" then .invalidImageType
  else .llmError (.str code)

/-! ### Status-write machinery -/

theorem setStatus_of_not_any (tid st : String) :
    ∀ b : Backlog, b.any (fun t => t.id == tid) = false → setStatus tid st b = b := by
  intro b hb
  induction b with
  | nil => rfl
  | cons t rest ih =>
    simp only [List.any_cons, Bool.or_eq_false_iff, beq_eq_false_iff_ne] at hb
    simp only [setStatus, List.map_cons, if_neg hb.1]
    have := ih (by simpa [List.any_eq_true] using hb.2)
    simpa [setStatus] using this

theorem update_ticket_status_backlog (b : Backlog) (tid st : String) :
    (update_ticket_status b tid st).1 = setStatus tid st b := by
  unfold update_ticket_status
  by_cases h : b.any (fun t => t.id == tid) = true
  · simp [h]
  · simp only [Bool.not_eq_true] at h
    simp [h, setStatus_of_not_any tid st b h]

theorem update_resolved_backlog :
    ∀ (entries : List TicketEntry) (b : Backlog),
      (update_resolved_tickets entries b).2 = statusWrites (entryWrites "Done" entries) b := by
  intro entries
  induction entries with
  | nil => intro b; rfl
  | cons e rest ih =>
    intro b
    unfold update_resolved_tickets
    cases he : truthyStr e.ticket_id with
    | none => simp [entryWrites, he, ih b, entryWrites]
    | some tid =>
      simp only [entryWrites, List.filterMap_cons, he, Option.map_some']
      rw [show statusWrites ((tid, "Done") :: List.filterMap _ rest) b =
            statusWrites (List.filterMap _ rest) (setStatus tid "Done" b) from rfl]
      rw [← update_ticket_status_backlog b tid "Done"]
      exact ih _

theorem update_needing_backlog :
    ∀ (entries : List TicketEntry) (b : Backlog),
      (update_tickets_needing_work entries b).2 =
        statusWrites (entryWrites "Changes Requested" entries) b := by
  intro entries
  induction entries with
  | nil => intro b; rfl
  | cons e rest ih =>
    intro b
    unfold update_tickets_needing_work
    cases he : truthyStr e.ticket_id with
    | none => simp [entryWrites, he, ih b, entryWrites]
    | some tid =>
      simp only [entryWrites, List.filterMap_cons, he, Option.map_some']
      rw [show statusWrites ((tid, "Changes Requested") :: List.filterMap _ rest) b =
            statusWrites (List.filterMap _ rest) (setStatus tid "Changes Requested" b) from rfl]
      rw [← update_ticket_status_backlog b tid "Changes Requested"]
      exact ih _

theorem statusWrites_map (ws : List (String × String)) :
    ∀ b : Backlog, statusWrites ws b =
      b.map fun t => { t with status := statusAfter ws t.id t.status } := by
  induction ws with
  | nil =>
    intro b
    simp only [statusWrites, List.foldl_nil, statusAfter]
    exact (List.map_id b).symm
  | cons w ws ih =>
    intro b
    show statusWrites ws (setStatus w.1 w.2 b) = _
    rw [ih (setStatus w.1 w.2 b)]
    simp only [setStatus, List.map_map]
    apply List.map_congr_left
    intro t _
    by_cases h : t.id = w.1
    · simp [Function.comp, h, statusAfter, if_pos h.symm]
    · have h2 : ¬ (w.1 = t.id) := fun hh => h hh.symm
      simp [Function.comp, h, statusAfter, if_neg h2]

theorem statusAfter_of_no_match (tid : String) :
    ∀ (ws : List (String × String)) (s : String),
      (∀ w ∈ ws, w.1 ≠ tid) → statusAfter ws tid s = s := by
  intro ws
  induction ws with
  | nil => intro s _; rfl
  | cons w ws ih =>
    intro s h
    show statusAfter ws tid (if w.1 = tid then w.2 else s) = s
    rw [if_neg (h w (List.mem_cons_self w ws))]
    exact ih s fun x hx => h x (List.mem_cons_of_mem w hx)

theorem statusAfter_of_match (tid : String) :
    ∀ (ws : List (String × String)),
      (∃ w ∈ ws, w.1 = tid) → ∀ s s', statusAfter ws tid s = statusAfter ws tid s' := by
  intro ws
  induction ws with
  | nil => rintro ⟨w, hw, _⟩; cases hw
  | cons w ws ih =>
    rintro ⟨x, hx, hxid⟩ s s'
    show statusAfter ws tid (if w.1 = tid then w.2 else s) =
      statusAfter ws tid (if w.1 = tid then w.2 else s')
    by_cases h : w.1 = tid
    · rw [if_pos h, if_pos h]
    · rw [if_neg h, if_neg h]
      rcases List.mem_cons.mp hx with hx1 | hx2
      · exact absurd (hx1 ▸ hxid) h
      · exact ih ⟨x, hx2, hxid⟩ s s'

theorem statusAfter_idem (ws : List (String × String)) (tid s : String) :
    statusAfter ws tid (statusAfter ws tid s) = statusAfter ws tid s := by
  by_cases h : ∃ w ∈ ws, w.1 = tid
  · exact statusAfter_of_match tid ws h _ s
  · push_neg at h
    rw [statusAfter_of_no_match tid ws _ h]

theorem statusWrites_idem (ws : List (String × String)) (b : Backlog) :
    statusWrites ws (statusWrites ws b) = statusWrites ws b := by
  rw [statusWrites_map, statusWrites_map, List.map_map]
  apply List.map_congr_left
  intro t _
  simp only [Function.comp]
  congr 1
  exact statusAfter_idem ws t.id t.status

theorem statusWrites_ids (ws : List (String × String)) (b : Backlog) :
    (statusWrites ws b).map (fun t => t.id) = b.map fun t => t.id := by
  rw [statusWrites_map, List.map_map]
  rfl

/-! ### Orchestrator-level lemmas -/

theorem resolved_branch (l : List TicketEntry) (b : Backlog) :
    (if l.isEmpty then (([] : List UpdateResult), b) else update_resolved_tickets l b) =
      update_resolved_tickets l b := by
  cases l with
  | nil => rfl
  | cons e rest => rfl

theorem needing_branch (l : List TicketEntry) (b : Backlog) :
    (if l.isEmpty then (([] : List UpdateResult), b) else update_tickets_needing_work l b) =
      update_tickets_needing_work l b := by
  cases l with
  | nil => rfl
  | cons e rest => rfl

theorem create_no_critical :
    ∀ (issues : List NewIssue) (b : Backlog),
      (∀ i ∈ issues, i.severity ≠ some "critical") →
      create_tickets_for_critical_issues issues b = (b, .ok []) := by
  intro issues
  induction issues with
  | nil => intro b _; rfl
  | cons i rest ih =>
    intro b h
    unfold create_tickets_for_critical_issues
    rw [if_neg (h i (List.mem_cons_self i rest))]
    exact ih b fun x hx => h x (List.mem_cons_of_mem i hx)

theorem statusWrites_append (ws1 ws2 : List (String × String)) (b : Backlog) :
    statusWrites (ws1 ++ ws2) b = statusWrites ws2 (statusWrites ws1 b) := by
  unfold statusWrites
  rw [List.foldl_append]

theorem exec_backlog_no_critical (st : ExecState) (a : Analysis)
    (h : ∀ i ∈ a.new_issues, i.severity ≠ some "critical") :
    ((execute_actions st a).1).backlog =
      statusWrites
        (entryWrites "Done" a.resolved_tickets ++
          entryWrites "Changes Requested" a.tickets_needing_work) st.backlog := by
  rw [statusWrites_append, ← update_resolved_backlog, ← update_needing_backlog]
  unfold execute_actions
  simp only [resolved_branch, needing_branch]
  by_cases hn : a.new_issues.isEmpty
  · simp only [hn, if_true]
  · simp only [hn, Bool.false_eq_true, if_false]
    rw [create_no_critical a.new_issues _ h]

theorem setStatus_ids (tid st : String) (b : Backlog) :
    (setStatus tid st b).map (fun t => t.id) = b.map fun t => t.id := by
  unfold setStatus
  rw [List.map_map]
  apply List.map_congr_left
  intro t _
  by_cases h : t.id = tid
  · simp [Function.comp, h]
  · simp [Function.comp, h]

theorem update_resolved_results_len :
    ∀ (entries : List TicketEntry) (b : Backlog),
      (update_resolved_tickets entries b).1.length = (entryWrites "Done" entries).length := by
  intro entries
  induction entries with
  | nil => intro b; rfl
  | cons e rest ih =>
    intro b
    unfold update_resolved_tickets
    cases he : truthyStr e.ticket_id with
    | none => simp [entryWrites, List.filterMap_cons, he, ih b, entryWrites]
    | some tid =>
      simp [entryWrites, List.filterMap_cons, he, Option.map_some']
      have := ih (update_ticket_status b tid "Done").1
      simp [entryWrites] at this
      exact this

theorem not_any_of_not_mem_ids (b : Backlog) (tid : String)
    (h : tid ∉ b.map fun t => t.id) : b.any (fun t => t.id == tid) = false := by
  rw [Bool.eq_false_iff]
  intro hc
  rw [List.any_eq_true] at hc
  obtain ⟨t, ht, hid⟩ := hc
  rw [beq_iff_eq] at hid
  exact h (List.mem_map.mpr ⟨t, ht, hid⟩)

theorem update_resolved_err_mem :
    ∀ (entries : List TicketEntry) (b : Backlog) (tid : String),
      (∃ e ∈ entries, truthyStr e.ticket_id = some tid) →
      tid ∉ b.map (fun t => t.id) →
      UpdateResult.err ("Ticket " ++ tid ++ " not found") ∈
        (update_resolved_tickets entries b).1 := by
  intro entries
  induction entries with
  | nil => rintro b tid ⟨e, he, _⟩ _; cases he
  | cons e rest ih =>
    rintro b tid ⟨x, hx, hxid⟩ hnm
    unfold update_resolved_tickets
    rcases List.mem_cons.mp hx with hx1 | hx2
    · subst hx1
      rw [hxid]
      show UpdateResult.err ("Ticket " ++ tid ++ " not found") ∈
        (update_ticket_status b tid "Done").2 ::
          (update_resolved_tickets rest (update_ticket_status b tid "Done").1).1
      have hne := not_any_of_not_mem_ids b tid hnm
      have hst : update_ticket_status b tid "Done" =
          (b, .err ("Ticket " ++ tid ++ " not found")) := by
        unfold update_ticket_status
        simp [hne]
      rw [hst]
      exact List.mem_cons_self _ _
    · cases he : truthyStr e.ticket_id with
      | none => exact ih b tid ⟨x, hx2, hxid⟩ hnm
      | some tid2 =>
        show UpdateResult.err ("Ticket " ++ tid ++ " not found") ∈
          (update_ticket_status b tid2 "Done").2 ::
            (update_resolved_tickets rest (update_ticket_status b tid2 "Done").1).1
        have hids : ((update_ticket_status b tid2 "Done").1).map (fun t => t.id) =
            b.map fun t => t.id := by
          rw [update_ticket_status_backlog]
          exact setStatus_ids tid2 "Done" b
        have hmem := ih (update_ticket_status b tid2 "Done").1 tid ⟨x, hx2, hxid⟩
          (by rw [hids]; exact hnm)
        exact List.mem_cons_of_mem _ hmem

theorem statusAfter_all_const (c : String) :
    ∀ (ws : List (String × String)) (tid s : String),
      (∀ w ∈ ws, (w : String × String).2 = c) → (∃ w ∈ ws, (w : String × String).1 = tid) →
      statusAfter ws tid s = c := by
  intro ws
  induction ws with
  | nil => rintro tid s _ ⟨w, hw, _⟩; cases hw
  | cons w ws ih =>
    rintro tid s hall ⟨x, hx, hxid⟩
    show statusAfter ws tid (if w.1 = tid then w.2 else s) = c
    by_cases hcase : ∃ y ∈ ws, (y : String × String).1 = tid
    · by_cases hw1 : w.1 = tid
      · rw [if_pos hw1]
        exact ih tid w.2 (fun z hz => hall z (List.mem_cons_of_mem w hz)) hcase
      · rw [if_neg hw1]
        exact ih tid s (fun z hz => hall z (List.mem_cons_of_mem w hz)) hcase
    · have hwtid : w.1 = tid := by
        rcases List.mem_cons.mp hx with h1 | h2
        · exact h1 ▸ hxid
        · exact absurd ⟨x, h2, hxid⟩ hcase
      rw [if_pos hwtid]
      rw [statusAfter_of_no_match tid ws w.2 (by push_neg at hcase; exact hcase)]
      exact hall w (List.mem_cons_self w ws)

theorem entryWrites_snd (c : String) (entries : List TicketEntry) :
    ∀ w ∈ entryWrites c entries, (w : String × String).2 = c := by
  intro w hw
  rw [entryWrites, List.mem_filterMap] at hw
  obtain ⟨e, _, he⟩ := hw
  cases h2 : truthyStr e.ticket_id with
  | none => rw [h2] at he; cases he
  | some s2 => rw [h2] at he; cases he; rfl

theorem update_resolved_done_mem (entries : List TicketEntry) (b : Backlog)
    (t : Ticket) (ht : t ∈ b)
    (hmatch : ∃ e ∈ entries, truthyStr e.ticket_id = some t.id) :
    { t with status := "Done" } ∈ (update_resolved_tickets entries b).2 := by
  rw [update_resolved_backlog, statusWrites_map]
  have hw : (t.id, "Done") ∈ entryWrites "Done" entries := by
    obtain ⟨e, he, heid⟩ := hmatch
    rw [entryWrites, List.mem_filterMap]
    exact ⟨e, he, by rw [heid]; rfl⟩
  have hafter : statusAfter (entryWrites "Done" entries) t.id t.status = "Done" :=
    statusAfter_all_const "Done" _ t.id t.status
      (entryWrites_snd "Done" entries) ⟨(t.id, "Done"), hw, rfl⟩
  exact List.mem_map.mpr ⟨t, ht, by rw [hafter]⟩

theorem update_resolved_untouched (entries : List TicketEntry) (b : Backlog)
    (t : Ticket) (ht : t ∈ b)
    (hno : ∀ e ∈ entries, truthyStr e.ticket_id ≠ some t.id) :
    t ∈ (update_resolved_tickets entries b).2 := by
  rw [update_resolved_backlog, statusWrites_map]
  have hafter : statusAfter (entryWrites "Done" entries) t.id t.status = t.status := by
    apply statusAfter_of_no_match
    intro w hw
    rw [entryWrites, List.mem_filterMap] at hw
    obtain ⟨e, he, heq⟩ := hw
    cases h2 : truthyStr e.ticket_id with
    | none => rw [h2] at heq; cases heq
    | some s2 =>
      rw [h2] at heq
      cases heq
      intro hcontra
      have hs2 : s2 = t.id := hcontra
      exact hno e he (by rw [h2, hs2])
  refine List.mem_map.mpr ⟨t, ht, ?_⟩
  rw [hafter]

/-! ### Ticket-id arithmetic -/

theorem valOf_cons (d : Nat) (l : List Nat) : valOf (d :: l) = d + 10 * valOf l := rfl

theorem natDigitsRev_step (f n : Nat) :
    natDigitsRev (f + 1) n = if n = 0 then [] else n % 10 :: natDigitsRev f (n / 10) := rfl

theorem natDigitsRev_lt10 :
    ∀ (f n : Nat), ∀ d ∈ natDigitsRev f n, d < 10 := by
  intro f
  induction f with
  | zero => intro n d hd; cases hd
  | succ f ih =>
    intro n d hd
    rw [natDigitsRev_step] at hd
    by_cases hn0 : n = 0
    · rw [if_pos hn0] at hd
      cases hd
    · rw [if_neg hn0] at hd
      rcases List.mem_cons.mp hd with h1 | h2
      · rw [h1]
        exact Nat.mod_lt _ (by norm_num)
      · exact ih _ d h2

theorem natDigitsRev_val :
    ∀ (f n : Nat), n < f → valOf (natDigitsRev f n) = n := by
  intro f
  induction f with
  | zero => intro n hn; cases hn
  | succ f ih =>
    intro n hn
    rw [natDigitsRev_step]
    by_cases hn0 : n = 0
    · rw [if_pos hn0, hn0]
      rfl
    · rw [if_neg hn0, valOf_cons]
      have hdiv : n / 10 < f := by
        have h1 : n / 10 < n := Nat.div_lt_self (Nat.pos_of_ne_zero hn0) (by norm_num)
        omega
      rw [ih _ hdiv]
      exact Nat.mod_add_div n 10

theorem valOf_replicate_zero : ∀ k : Nat, valOf (List.replicate k 0) = 0 := by
  intro k
  induction k with
  | zero => rfl
  | succ k ih => rw [List.replicate_succ, valOf_cons, ih]

theorem valOf_append_zeros :
    ∀ (l : List Nat) (k : Nat), valOf (l ++ List.replicate k 0) = valOf l := by
  intro l k
  induction l with
  | nil => simpa using valOf_replicate_zero k
  | cons d l ih => rw [List.cons_append, valOf_cons, ih, valOf_cons]

theorem charOfDigit_inj :
    ∀ a, a < 10 → ∀ b, b < 10 → charOfDigit a = charOfDigit b → a = b := by decide

theorem mapChar_inj :
    ∀ (l1 l2 : List Nat), (∀ d ∈ l1, d < 10) → (∀ d ∈ l2, d < 10) →
      l1.map charOfDigit = l2.map charOfDigit → l1 = l2 := by
  intro l1
  induction l1 with
  | nil =>
    intro l2 _ _ h
    cases l2 with
    | nil => rfl
    | cons b l2 => cases h
  | cons a l1 ih =>
    intro l2 h1 h2 h
    cases l2 with
    | nil => cases h
    | cons b l2 =>
      rw [List.map_cons, List.map_cons, List.cons.injEq] at h
      have hab : a = b := charOfDigit_inj a (h1 a (List.mem_cons_self a l1))
        b (h2 b (List.mem_cons_self b l2)) h.1
      rw [hab, ih l2 (fun d hd => h1 d (List.mem_cons_of_mem a hd))
        (fun d hd => h2 d (List.mem_cons_of_mem b hd)) h.2]

theorem padChars_inj (a b : Nat) (h : padChars a = padChars b) : a = b := by
  unfold padChars at h
  have hb1 : ∀ d ∈ (digitsOf a ++ List.replicate (3 - (digitsOf a).length) 0).reverse, d < 10 := by
    intro d hd
    rw [List.mem_reverse, List.mem_append] at hd
    rcases hd with hd | hd
    · exact natDigitsRev_lt10 _ _ d hd
    · rw [List.eq_of_mem_replicate hd]; norm_num
  have hb2 : ∀ d ∈ (digitsOf b ++ List.replicate (3 - (digitsOf b).length) 0).reverse, d < 10 := by
    intro d hd
    rw [List.mem_reverse, List.mem_append] at hd
    rcases hd with hd | hd
    · exact natDigitsRev_lt10 _ _ d hd
    · rw [List.eq_of_mem_replicate hd]; norm_num
  have heq := List.reverse_injective (mapChar_inj _ _ hb1 hb2 h)
  have hval := congrArg valOf heq
  rw [valOf_append_zeros, valOf_append_zeros] at hval
  unfold digitsOf at hval
  rw [natDigitsRev_val _ a (Nat.lt_succ_self a),
    natDigitsRev_val _ b (Nat.lt_succ_self b)] at hval
  exact hval

theorem uiId_inj (a b : Nat) (h : uiId a = uiId b) : a = b := by
  apply padChars_inj
  have hd := congrArg String.data h
  have h2 : "UI-".data ++ padChars a = "UI-".data ++ padChars b := hd
  exact List.append_cancel_left h2

theorem isPrefixOf_append_self :
    ∀ (p l : List Char), p.isPrefixOf (p ++ l) = true := by
  intro p
  induction p with
  | nil => intro l; simp [List.isPrefixOf]
  | cons a p ih => intro l; simp [List.isPrefixOf, ih l]

theorem isUIId_uiId (k : Nat) : isUIId (uiId k) = true := by
  show ("UI-".data).isPrefixOf (("UI-" ++ String.mk (padChars k)).data) = true
  have : ("UI-" ++ String.mk (padChars k)).data = "UI-".data ++ padChars k := rfl
  rw [this]
  exact isPrefixOf_append_self _ _

/-! ### Extraction-chain lemmas -/

theorem str_data_append (a b : String) : (a ++ b).data = a.data ++ b.data := rfl

theorem dropWhile_append_all {p : Char → Bool} :
    ∀ (l1 l2 : List Char), (∀ c ∈ l1, p c = true) →
      List.dropWhile p (l1 ++ l2) = List.dropWhile p l2 := by
  intro l1
  induction l1 with
  | nil => intro l2 _; rfl
  | cons a l1 ih =>
    intro l2 h
    rw [List.cons_append, List.dropWhile_cons, if_pos (h a (List.mem_cons_self a l1))]
    exact ih l2 fun c hc => h c (List.mem_cons_of_mem a hc)

theorem dropWhile_append_left {p : Char → Bool} :
    ∀ (l1 l2 : List Char), List.dropWhile p l1 ≠ [] →
      List.dropWhile p (l1 ++ l2) = List.dropWhile p l1 ++ l2 := by
  intro l1
  induction l1 with
  | nil => intro l2 h; exact absurd rfl h
  | cons a l1 ih =>
    intro l2 h
    simp only [List.cons_append, List.dropWhile_cons] at h ⊢
    by_cases hp : p a = true
    · simp only [hp, if_true] at h ⊢
      exact ih l2 h
    · rw [Bool.not_eq_true] at hp
      simp only [hp, Bool.false_eq_true, if_false]
      rfl

theorem dropWhile_ne_nil_of_mem {p : Char → Bool} :
    ∀ (l : List Char) (a : Char), a ∈ l → p a = false → List.dropWhile p l ≠ [] := by
  intro l
  induction l with
  | nil => intro a ha; cases ha
  | cons b l ih =>
    intro a ha hpa
    rw [List.dropWhile_cons]
    rcases List.mem_cons.mp ha with h1 | h2
    · subst h1
      rw [if_neg (by rw [hpa]; simp)]
      simp
    · by_cases hpb : p b = true
      · rw [if_pos hpb]
        exact ih a h2 hpa
      · rw [Bool.not_eq_true] at hpb
        rw [if_neg (by rw [hpb]; simp)]
        simp

theorem mem_of_mem_dropWhile {p : Char → Bool} :
    ∀ (l : List Char) (a : Char), a ∈ List.dropWhile p l → a ∈ l := by
  intro l
  induction l with
  | nil => intro a ha; exact ha
  | cons b l ih =>
    intro a ha
    rw [List.dropWhile_cons] at ha
    by_cases hpb : p b = true
    · rw [if_pos hpb] at ha
      exact List.mem_cons_of_mem b (ih a ha)
    · rw [Bool.not_eq_true] at hpb
      rw [if_neg (by rw [hpb]; simp)] at ha
      exact ha

theorem mem_of_getLast_some :
    ∀ (l : List Char) (a : Char), l.getLast? = some a → a ∈ l := by
  intro l
  induction l with
  | nil => intro a h; cases h
  | cons b l ih =>
    intro a h
    cases l with
    | nil =>
      cases h
      exact List.mem_cons_self _ _
    | cons e l2 =>
      rw [List.getLast?_cons_cons] at h
      exact List.mem_cons_of_mem b (ih a h)

theorem parseGo_val_bq (f : Nat) (l : List Char) :
    parseGo (f + 1) .val (backquoteChar :: l) = none := rfl

theorem jsonParse_eq_none_of_bq (s : String) (l : List Char)
    (h : s.data = backquoteChar :: l) : jsonParse s = none := by
  unfold jsonParse
  rw [h]
  obtain ⟨f, hf⟩ : ∃ f, 2 * (backquoteChar :: l).length + 8 = f + 1 :=
    ⟨2 * (backquoteChar :: l).length + 7, by omega⟩
  rw [hf, parseGo_val_bq]

theorem fenceTag_cons : fenceTag = backquoteChar :: "``json".data := rfl

theorem mdSearch_none_of_no_bq :
    ∀ (l : List Char), (∀ c ∈ l, c ≠ backquoteChar) → mdSearch l = none := by
  intro l
  induction l with
  | nil => intro _; rfl
  | cons c rest ih =>
    intro h
    have hchead : (backquoteChar == c) = false := by
      rw [beq_eq_false_iff_ne]
      exact fun hc => (h c (List.mem_cons_self c rest)) hc.symm
    have hpref : fenceTag.isPrefixOf (c :: rest) = false := by
      rw [fenceTag_cons]
      simp [List.isPrefixOf, hchead]
    simp only [mdSearch, hpref, Bool.false_eq_true, if_false]
    exact ih fun x hx => h x (List.mem_cons_of_mem c hx)

theorem wsThenFence_false_of (m tail : List Char)
    (hne : ∃ c ∈ m, isWs c = false) (hnbq : ∀ c ∈ m, c ≠ backquoteChar) :
    wsThenFence (m ++ tail) = false := by
  obtain ⟨a, ha, hpa⟩ := hne
  have hdw : List.dropWhile isWs m ≠ [] := dropWhile_ne_nil_of_mem m a ha hpa
  unfold wsThenFence skipWs
  rw [dropWhile_append_left m tail hdw]
  cases hk : List.dropWhile isWs m with
  | nil => exact absurd hk hdw
  | cons d ds =>
    have hd : d ∈ m := mem_of_mem_dropWhile m d (by rw [hk]; exact List.mem_cons_self d ds)
    have hdbq : (backquoteChar == d) = false := by
      rw [beq_eq_false_iff_ne]
      exact fun hc => (hnbq d hd) hc.symm
    rw [show fenceTriple = backquoteChar :: "``".data from rfl]
    simp [List.isPrefixOf, hdbq]

theorem findClose_run :
    ∀ (mid : List Char), mid ≠ [] → mid.getLast? = some '}' →
      (∀ c ∈ mid, c ≠ backquoteChar) →
      ∀ (acc tail : List Char), wsThenFence tail = true →
      findClose acc (mid ++ tail) = some ('{' :: (acc.reverse ++ mid)) := by
  intro mid
  induction mid with
  | nil => intro h; exact absurd rfl h
  | cons c mid ih =>
    intro _ hlast hnbq acc tail htail
    cases mid with
    | nil =>
      have hc : c = '}' := by
        cases hlast
        rfl
      subst hc
      rw [List.cons_append, List.nil_append]
      show findClose acc ('}' :: tail) = _
      unfold findClose
      rw [if_pos (by simp [htail])]
    | cons e mid2 =>
      have hlast2 : (e :: mid2).getLast? = some '}' := by
        rw [List.getLast?_cons_cons] at hlast
        exact hlast
      have hmem : '}' ∈ e :: mid2 := mem_of_getLast_some _ _ hlast2
      have hfence : wsThenFence ((e :: mid2) ++ tail) = false := by
        apply wsThenFence_false_of
        · exact ⟨'}', hmem, rfl⟩
        · intro x hx
          exact hnbq x (List.mem_cons_of_mem c hx)
      rw [List.cons_append]
      unfold findClose
      rw [if_neg (by rw [hfence]; simp)]
      rw [ih (by simp) hlast2
        (fun x hx => hnbq x (List.mem_cons_of_mem c hx)) (c :: acc) tail htail]
      rw [List.reverse_cons, List.append_assoc]
      rfl

theorem mdSearch_hit (X body g : List Char)
    (hskip : skipWs X = '{' :: body)
    (hfind : findClose [] body = some g) :
    mdSearch (fenceTag ++ X) = some g := by
  rw [show fenceTag ++ X = backquoteChar :: ("``json".data ++ X) from rfl]
  unfold mdSearch
  rw [if_pos (show fenceTag.isPrefixOf (backquoteChar :: ("``json".data ++ X)) = true from
    isPrefixOf_append_self fenceTag X)]
  have hdrop : (backquoteChar :: ("``json".data ++ X)).drop 7 = X := by
    show (fenceTag ++ X).drop 7 = X
    rw [show (7 : Nat) = fenceTag.length from rfl]
    exact List.drop_left _ _
  simp only [hdrop, hskip, hfind]

theorem getLast?_cons_of_ne_nil (c : Char) (l : List Char) (h : l ≠ []) :
    (c :: l).getLast? = l.getLast? := by
  cases l with
  | nil => exact absurd rfl h
  | cons e l2 => exact List.getLast?_cons_cons

theorem mdSearch_fenced (t : String) (tt : List Char)
    (hdata : t.data = '{' :: tt) (htt : tt ≠ []) (hlast : tt.getLast? = some '}')
    (hnbq : ∀ c ∈ t.data, c ≠ backquoteChar) :
    mdSearch (("```json\n" ++ t ++ "\n```").data) = some t.data := by
  have hX : ("```json\n" ++ t ++ "\n```").data =
      fenceTag ++ ('\n' :: (t.data ++ ('\n' :: fenceTriple))) := by
    rw [str_data_append, str_data_append]
    rw [show "```json\n".data = fenceTag ++ ['\n'] from rfl]
    rw [show "\n```".data = '\n' :: fenceTriple from rfl]
    rw [List.append_assoc]
    rfl
  rw [hX]
  apply mdSearch_hit _ (tt ++ ('\n' :: fenceTriple)) t.data
  · rw [hdata]
    rfl
  · have hfc := findClose_run tt htt hlast
      (fun c hc => hnbq c (by rw [hdata]; exact List.mem_cons_of_mem _ hc))
      [] ('\n' :: fenceTriple) rfl
    rw [hfc, hdata]
    rfl

theorem braceSpan_prose (p1 t p2 : String) (tt : List Char)
    (hdata : t.data = '{' :: tt) (htt : tt ≠ []) (hlast : tt.getLast? = some '}')
    (hp1 : ∀ c ∈ p1.data, (c = '{' → False) ∧ (c = '}' → False))
    (hp2 : ∀ c ∈ p2.data, (c = '{' → False) ∧ (c = '}' → False)) :
    braceSpan ((p1 ++ t ++ p2).data) = some t.data := by
  have hd : (p1 ++ t ++ p2).data = p1.data ++ (t.data ++ p2.data) := by
    rw [str_data_append, str_data_append, List.append_assoc]
  unfold braceSpan
  rw [hd]
  have h1 : List.dropWhile (fun c => !(c == '{')) (p1.data ++ (t.data ++ p2.data)) =
      '{' :: (tt ++ p2.data) := by
    rw [dropWhile_append_all p1.data _ (fun c hc => by
      simp [beq_eq_false_iff_ne]
      exact fun hcc => (hp1 c hc).1 hcc)]
    rw [hdata, List.cons_append, List.dropWhile_cons]
    simp
  simp only [h1]
  obtain ⟨init, hinit⟩ : ∃ init, tt = init ++ ['}'] := by
    refine ⟨tt.dropLast, ?_⟩
    have h3 := List.dropLast_append_getLast htt
    have h4 : tt.getLast htt = '}' := by
      have h5 := List.getLast?_eq_getLast tt htt
      rw [h5] at hlast
      exact (Option.some.injEq _ _).mp hlast
    rw [h4] at h3
    exact h3.symm
  have h2 : List.dropWhile (fun c => !(c == '}')) ((tt ++ p2.data).reverse) =
      '}' :: init.reverse := by
    rw [List.reverse_append]
    rw [dropWhile_append_all p2.data.reverse _ (fun c hc => by
      simp [beq_eq_false_iff_ne]
      exact fun hcc => (hp2 c (List.mem_reverse.mp hc)).2 hcc)]
    rw [hinit, List.reverse_append]
    show List.dropWhile _ ('}' :: init.reverse) = _
    rw [List.dropWhile_cons]
    simp
  simp only [h2]
  rw [List.reverse_cons, List.reverse_reverse, hdata, hinit]

theorem shape_of_obj (t : String)
    (hhead : t.data.head? = some '{') (hlast : t.data.getLast? = some '}') :
    ∃ tt, t.data = '{' :: tt ∧ tt ≠ [] ∧ tt.getLast? = some '}' := by
  cases hd : t.data with
  | nil => rw [hd] at hhead; cases hhead
  | cons c tt =>
    rw [hd] at hhead
    have hc : c = '{' := by
      cases hhead
      rfl
    subst hc
    refine ⟨tt, rfl, ?_, ?_⟩
    · intro hnil
      rw [hd, hnil] at hlast
      cases hlast
    · rw [hd] at hlast
      cases tt with
      | nil => cases hlast
      | cons e tt2 =>
        rw [List.getLast?_cons_cons] at hlast
        exact hlast

theorem extractJson_fenced (t : String) (v : Json)
    (hparse : jsonParse t = some v)
    (hhead : t.data.head? = some '{') (hlast : t.data.getLast? = some '}')
    (hnbq : ∀ c ∈ t.data, c ≠ backquoteChar) :
    extractJson ("```json\n" ++ t ++ "\n```") = some v := by
  obtain ⟨tt, hdata, htt, htlast⟩ := shape_of_obj t hhead hlast
  have hnone : jsonParse ("```json\n" ++ t ++ "\n```") = none := by
    apply jsonParse_eq_none_of_bq _ ("``json\n".data ++ (t.data ++ "\n```".data))
    rfl
  have hmk : String.mk t.data = t := rfl
  simp only [extractJson, hnone, mdSearch_fenced t tt hdata htt htlast hnbq, hmk, hparse]

theorem extractJson_prose (p1 t p2 : String) (v : Json)
    (hparse : jsonParse t = some v)
    (hhead : t.data.head? = some '{') (hlast : t.data.getLast? = some '}')
    (hnbq : ∀ c ∈ t.data, c ≠ backquoteChar)
    (hp1 : ∀ c ∈ p1.data, (c = '{' → False) ∧ (c = '}' → False) ∧ c ≠ backquoteChar)
    (hp2 : ∀ c ∈ p2.data, (c = '{' → False) ∧ (c = '}' → False) ∧ c ≠ backquoteChar)
    (hdir : jsonParse (p1 ++ t ++ p2) = none) :
    extractJson (p1 ++ t ++ p2) = some v := by
  obtain ⟨tt, hdata, htt, htlast⟩ := shape_of_obj t hhead hlast
  have hmd : mdSearch ((p1 ++ t ++ p2).data) = none := by
    apply mdSearch_none_of_no_bq
    intro c hc
    rw [str_data_append, str_data_append] at hc
    rcases List.mem_append.mp hc with hc1 | hc2
    · rcases List.mem_append.mp hc1 with hc3 | hc4
      · exact (hp1 c hc3).2.2
      · exact hnbq c hc4
    · exact (hp2 c hc2).2.2
  have hbs := braceSpan_prose p1 t p2 tt hdata htt htlast
    (fun c hc => ⟨(hp1 c hc).1, (hp1 c hc).2.1⟩)
    (fun c hc => ⟨(hp2 c hc).1, (hp2 c hc).2.1⟩)
  have hmk : String.mk t.data = t := rfl
  simp only [extractJson, hdir, hmd, hbs, hmk, hparse]

/-! ### Sentinel and classification lemmas -/

theorem lookup_const_of_no_key (k : String) :
    ∀ (kvs : List (String × Json)) (acc : Option Json),
      (∀ p ∈ kvs, (p : String × Json).1 ≠ k) →
      kvs.foldl (fun acc p => if p.1 = k then some p.2 else acc) acc = acc := by
  intro kvs
  induction kvs with
  | nil => intro acc _; rfl
  | cons p kvs ih =>
    intro acc h
    rw [List.foldl_cons, if_neg (h p (List.mem_cons_self p kvs))]
    exact ih acc fun q hq => h q (List.mem_cons_of_mem p hq)

theorem any_key_of_lookup_some (kvs : List (String × Json)) (k : String) (j : Json)
    (h : lookupKey kvs k = some j) : kvs.any (fun p => p.1 == k) = true := by
  by_contra hc
  rw [Bool.not_eq_true] at hc
  have hall : ∀ p ∈ kvs, (p : String × Json).1 ≠ k := by
    intro p hp
    intro heq
    have : kvs.any (fun p => p.1 == k) = true :=
      List.any_eq_true.mpr ⟨p, hp, beq_iff_eq.mpr heq⟩
    rw [hc] at this
    cases this
  rw [lookupKey, lookup_const_of_no_key k kvs none hall] at h
  cases h

theorem checkSentinel_obj (kvs : List (String × Json)) (code : String)
    (h : lookupKey kvs "error" = some (.str code)) :
    checkSentinel (.obj kvs) = .error (sentinelFailure code) := by
  simp only [checkSentinel]
  rw [if_pos (any_key_of_lookup_some kvs "error" _ h), h]
  show (if code = "IMAGES_TOO_SIMILAR" then Except.error DiffError.tooSimilar
    else if code = "INVALID_IMAGE_TYPE" then Except.error DiffError.invalidImageType
    else Except.error (DiffError.llmError (Json.str code))) =
      Except.error (sentinelFailure code)
  unfold sentinelFailure
  by_cases h1 : code = "IMAGES_TOO_SIMILAR"
  · rw [if_pos h1, if_pos h1]
  · rw [if_neg h1, if_neg h1]
    by_cases h2 : code = "INVALID_IMAGE_TYPE"
    · rw [if_pos h2, if_pos h2]
    · rw [if_neg h2, if_neg h2]

theorem compare_screenshots_sentinel (resp : String) (kvs : List (String × Json))
    (code : String)
    (hp : jsonParse resp = some (.obj kvs))
    (hl : lookupKey kvs "error" = some (.str code)) :
    ImageDiffAgent.compare_screenshots resp = .error (sentinelFailure code) := by
  unfold ImageDiffAgent.compare_screenshots
  simp only [hp]
  exact checkSentinel_obj kvs code hl

theorem extractJson_of_parse (resp : String) (v : Json)
    (h : jsonParse resp = some v) : extractJson resp = some v := by
  unfold extractJson
  simp only [h]

theorem cls_isEmpty_false (diffs : List Json) (h : diffs ≠ []) :
    diffs.isEmpty = false := by
  cases diffs with
  | nil => exact absurd rfl h
  | cons d rest => rfl

theorem cls_returns (diffs : List Json) (b : Backlog) (resp : String) (v : Json)
    (hne : diffs ≠ []) (hx : extractJson resp = some v) :
    (ClassificationAgent.analyze_differences diffs b (fun _ => resp)).1 = .ok v := by
  unfold ClassificationAgent.analyze_differences
  simp only [cls_isEmpty_false diffs hne, Bool.false_eq_true, if_false, hx]

theorem cls_raises (diffs : List Json) (b : Backlog) (resp : String)
    (hne : diffs ≠ []) (hx : extractJson resp = none) :
    (ClassificationAgent.analyze_differences diffs b (fun _ => resp)).1 =
      .error (.malformedResponse resp) := by
  unfold ClassificationAgent.analyze_differences
  simp only [cls_isEmpty_false diffs hne, Bool.false_eq_true, if_false, hx]

theorem da_mock (diffs : List Json) (b : Backlog) (resp : String)
    (hne : diffs ≠ []) (hx : extractJson resp = none) :
    DifferenceAnalyzer.analyze_differences diffs true b (fun _ => resp) =
      mockAnalysisResponse := by
  unfold DifferenceAnalyzer.analyze_differences
  simp only [cls_isEmpty_false diffs hne, Bool.false_eq_true, if_false, hx,
    Bool.not_true]

/-! ### New-issue routing lemmas -/

theorem create_skip (i : NewIssue) (hi : i.severity ≠ some "critical") :
    ∀ (l1 l2 : List NewIssue) (b : Backlog),
      create_tickets_for_critical_issues (l1 ++ i :: l2) b =
        create_tickets_for_critical_issues (l1 ++ l2) b := by
  intro l1
  induction l1 with
  | nil =>
    intro l2 b
    rw [List.nil_append, List.nil_append]
    show create_tickets_for_critical_issues (i :: l2) b = _
    rw [show create_tickets_for_critical_issues (i :: l2) b =
      (if i.severity = some "critical" then
        ((create_ticket b (i.title.getD "UI Regression Issue")
          (i.description.getD "Critical UI issue detected during regression testing")
          "High" "Bug" "auto.assigned@company.com" "ui.regression.agent@company.com"
          "Open" none).1, Except.error PyErr.keyError)
      else create_tickets_for_critical_issues l2 b) from rfl]
    rw [if_neg hi]
  | cons j l1 ih =>
    intro l2 b
    rw [List.cons_append, List.cons_append]
    have hstep : ∀ rest, create_tickets_for_critical_issues (j :: rest) b =
      (if j.severity = some "critical" then
        ((create_ticket b (j.title.getD "UI Regression Issue")
          (j.description.getD "Critical UI issue detected during regression testing")
          "High" "Bug" "auto.assigned@company.com" "ui.regression.agent@company.com"
          "Open" none).1, Except.error PyErr.keyError)
      else create_tickets_for_critical_issues rest b) := fun rest => rfl
    rw [hstep (l1 ++ i :: l2), hstep (l1 ++ l2)]
    by_cases hj : j.severity = some "critical"
    · rw [if_pos hj, if_pos hj]
    · rw [if_neg hj, if_neg hj]
      exact ih l2 b

theorem filter_minor_skip (i : NewIssue) (hi : i.severity ≠ some "minor")
    (l1 l2 : List NewIssue) :
    List.filter (fun i => i.severity = some "minor") (l1 ++ i :: l2) =
      List.filter (fun i => i.severity = some "minor") (l1 ++ l2) := by
  rw [List.filter_append, List.filter_append, List.filter_cons]
  simp [hi]

theorem minorEntries_skip (i : NewIssue) (hi : i.severity ≠ some "minor")
    (l1 l2 : List NewIssue) :
    minorEntries (l1 ++ i :: l2) = minorEntries (l1 ++ l2) := by
  unfold minorEntries
  rw [filter_minor_skip i hi l1 l2]

/-! ### Claim theorems -/

/-- Claim C1 is false on the code: `create_ticket` derives the next id from
`COUNT(*)` of `UI-` tickets, not from the maximum numeric suffix.  On the
gapped backlog `[UI-001, UI-004]` the next created ticket gets id `UI-003`
— not `UI-005` as the claim states — and the creation after that computes
`UI-004`, which already exists in the backlog. -/
theorem C1_counterexample :
    nextTicketId gapBacklog = "UI-003" ∧ "UI-003" ≠ "UI-005" ∧
    nextTicketId ((create_ticket gapBacklog "Missing About link in header"
      "About link is missing from the navigation header" "High" "Bug"
      "auto.assigned@company.com" "ui.regression.agent@company.com" "Open" none).1) =
      "UI-004" ∧
    "UI-004" ∈ gapBacklog.map (fun t => t.id) := by
  refine ⟨rfl, by decide, rfl, by decide⟩

/-- Claim C1 (amended): the id `create_ticket` assigns is
`UI-(count of UI-prefixed tickets + 1)`, zero-padded to three digits.  This
is collision-free exactly when the UI ids present are the contiguous range
`UI-001 .. UI-00n`: then the next id is `UI-(n+1)`, which is fresh.  With
gaps or out-of-order ids the count undershoots the maximum suffix and
re-runs can collide (see the counterexample). -/
theorem C1_amended (n : Nat) (b : Backlog)
    (hids : (List.filter (fun t => isUIId t.id) b).map (fun t => t.id) =
      (List.range n).map (fun i => uiId (i + 1))) :
    nextTicketId b = uiId (n + 1) ∧ ∀ t ∈ b, t.id ≠ uiId (n + 1) := by
  have hcount : uiCount b = n := by
    have hlen := congrArg List.length hids
    simpa [uiCount] using hlen
  constructor
  · show uiId (uiCount b + 1) = uiId (n + 1)
    rw [hcount]
  · intro t ht hcontra
    by_cases hui : isUIId t.id = true
    · have htf : t ∈ List.filter (fun t => isUIId t.id) b :=
        List.mem_filter.mpr ⟨ht, hui⟩
      have hmem : t.id ∈ (List.filter (fun t => isUIId t.id) b).map (fun t => t.id) :=
        List.mem_map.mpr ⟨t, htf, rfl⟩
      rw [hids] at hmem
      obtain ⟨i, hi, hieq⟩ := List.mem_map.mp hmem
      rw [List.mem_range] at hi
      rw [hcontra] at hieq
      have := uiId_inj _ _ hieq
      omega
    · apply hui
      rw [hcontra]
      exact isUIId_uiId (n + 1)

/-- Claim C1 (amended) at a contiguous two-ticket backlog: the next id is
`UI-003` and it is fresh. -/
theorem C1_amended_witness :
    nextTicketId [ticketUI1, ({ id := "UI-002" } : Ticket)] = uiId 3 ∧
    ticketUI1.id ≠ uiId 3 := by
  have h := C1_amended 2 [ticketUI1, { id := "UI-002" }] (by decide)
  exact ⟨h.1, h.2 ticketUI1 (by decide)⟩

/-- Claim C2: the code contradicts it (and the repo's own test
`tests/test_jira_updates.py::test_ui_001_moved_to_on_hold_with_comment`).
`execute_actions` never reads the `pending_tickets` key — applying a
partition that classifies `UI-001` as pending leaves the backlog untouched
and reports empty results — and even its needing-work path writes the
status string `"Changes Requested"` (not `on_hold`) and never attaches a
comment. -/
theorem C2_code_eval :
    execute_actions { backlog := [ticketUI1], minorLog := [] }
      { pending_tickets := [{ ticket_id := some "UI-001", reason := some "punctuation differs" }] } =
      ({ backlog := [ticketUI1], minorLog := [] }, some {}) ∧
    (update_tickets_needing_work
      [{ ticket_id := some "UI-001", reason := some "punctuation differs" }]
      [ticketUI1]).2 = [{ ticketUI1 with status := "Changes Requested" }] ∧
    "Changes Requested" ≠ "on_hold" ∧
    ({ ticketUI1 with status := "Changes Requested" } : Ticket).comment = none := by
  refine ⟨rfl, rfl, by decide, rfl⟩

/-- Claim C3 is false on the code: applying the same disposition twice is
not idempotent.  A partition carrying one critical new issue inserts a
fresh count-numbered ticket on every application (and each application
aborts with a `KeyError` right after the insert), so the second
application leaves two tickets where the first left one. -/
theorem C3_counterexample :
    ((execute_actions ({} : ExecState) criticalAnalysis).1).backlog.length = 1 ∧
    ((execute_actions (execute_actions ({} : ExecState) criticalAnalysis).1
      criticalAnalysis).1).backlog.length = 2 ∧
    (execute_actions (execute_actions ({} : ExecState) criticalAnalysis).1
      criticalAnalysis).1 ≠ (execute_actions ({} : ExecState) criticalAnalysis).1 := by
  refine ⟨rfl, rfl, by decide⟩

/-- Claim C3 (amended): the status-writing dispositions are idempotent —
for a partition whose `new_issues` list has no critical entry (so no
ticket creation occurs), applying it twice leaves the same final backlog
as applying it once; the resolved and needing-work writes re-issue the
same absolute status strings.  Creation of critical new issues has no
dedup key and is not idempotent (see the counterexample). -/
theorem C3_amended (st : ExecState) (a : Analysis)
    (h : ∀ i ∈ a.new_issues, i.severity ≠ some "critical") :
    ((execute_actions (execute_actions st a).1 a).1).backlog =
      ((execute_actions st a).1).backlog := by
  have h1 := exec_backlog_no_critical st a h
  have h2 := exec_backlog_no_critical (execute_actions st a).1 a h
  rw [h2, h1]
  exact statusWrites_idem _ _

/-- Claim C3 (amended) at a one-ticket backlog and a resolve-only
partition. -/
theorem C3_amended_witness :
    ((execute_actions (execute_actions { backlog := [ticketUI1], minorLog := [] }
        { resolved_tickets := [{ ticket_id := some "UI-001" }] }).1
      { resolved_tickets := [{ ticket_id := some "UI-001" }] }).1).backlog =
    ((execute_actions { backlog := [ticketUI1], minorLog := [] }
      { resolved_tickets := [{ ticket_id := some "UI-001" }] }).1).backlog :=
  C3_amended { backlog := [ticketUI1], minorLog := [] }
    { resolved_tickets := [{ ticket_id := some "UI-001" }] } (by simp)

/-- Claim C4 is false on the code: `DifferenceAnalyzer.analyze_differences`
returns the canned mock partition — not a raised failure — when no JSON
can be recovered from the model response (`difference_analyzer.py`
lines 135-140). -/
theorem C4_counterexample :
    DifferenceAnalyzer.analyze_differences [Json.null] true [] (fun _ => "hello") =
      mockAnalysisResponse := rfl

/-- Claim C4 (amended): the propagation policy holds only for the
`ClassificationAgent` path, which raises
`ValueError("Analysis response does not contain valid JSON")` whenever the
extraction chain recovers nothing; the `DifferenceAnalyzer` path instead
silently returns the canned mock partition on the same input (and also
when no API key is configured). -/
theorem C4_amended (diffs : List Json) (b : Backlog) (resp : String)
    (hne : diffs ≠ []) (hx : extractJson resp = none) :
    (ClassificationAgent.analyze_differences diffs b (fun _ => resp)).1 =
      .error (.malformedResponse resp) ∧
    DifferenceAnalyzer.analyze_differences diffs true b (fun _ => resp) =
      mockAnalysisResponse :=
  ⟨cls_raises diffs b resp hne hx, da_mock diffs b resp hne hx⟩

/-- Claim C4 (amended) at the unparseable response `"hello"`. -/
theorem C4_amended_witness :
    (ClassificationAgent.analyze_differences [Json.null] [] (fun _ => "hello")).1 =
      .error (.malformedResponse "hello") ∧
    DifferenceAnalyzer.analyze_differences [Json.null] true [] (fun _ => "hello") =
      mockAnalysisResponse :=
  C4_amended [Json.null] [] "hello" (by simp) rfl

/-- Claim C5 is false on the code: the error-sentinel family is only
recognized in the screenshot-comparison path.  The disposition-partition
extraction (`classification_agent.py`) has no sentinel check and returns
the sentinel object as data. -/
theorem C5_counterexample :
    (ClassificationAgent.analyze_differences [Json.null] []
      (fun _ => sentinelResp)).1 =
      .ok (.obj [("error", .str "IMAGES_TOO_SIMILAR")]) := rfl

/-- Claim C5 (amended): in `compare_screenshots` (and only there), a
recovered object carrying an `error` key raises the corresponding
`ValueError` — distinguished by message, not by exception type:
too-similar for `IMAGES_TOO_SIMILAR`, invalid-image for
`INVALID_IMAGE_TYPE`, a generic `LLM returned error` otherwise — and the
sentinel is never returned as data; the disposition-partition path returns
the same sentinel object as its result. -/
theorem C5_amended (resp code : String) (kvs : List (String × Json))
    (diffs : List Json) (b : Backlog)
    (hp : jsonParse resp = some (.obj kvs))
    (hl : lookupKey kvs "error" = some (.str code))
    (hne : diffs ≠ []) :
    ImageDiffAgent.compare_screenshots resp = .error (sentinelFailure code) ∧
    (ClassificationAgent.analyze_differences diffs b (fun _ => resp)).1 =
      .ok (.obj kvs) :=
  ⟨compare_screenshots_sentinel resp kvs code hp hl,
   cls_returns diffs b resp _ hne (extractJson_of_parse resp _ hp)⟩

/-- Claim C5 (amended) at the too-similar sentinel response. -/
theorem C5_amended_witness :
    ImageDiffAgent.compare_screenshots sentinelResp =
      .error (sentinelFailure "IMAGES_TOO_SIMILAR") ∧
    (ClassificationAgent.analyze_differences [Json.null] []
      (fun _ => sentinelResp)).1 =
      .ok (.obj [("error", .str "IMAGES_TOO_SIMILAR")]) :=
  C5_amended sentinelResp "IMAGES_TOO_SIMILAR"
    [("error", .str "IMAGES_TOO_SIMILAR")] [Json.null] [] rfl rfl (by simp)

/-- Claim C6 is confirmed: for an empty differences list,
`ClassificationAgent.analyze_differences` returns the empty partition
`\x7bresolved_tickets: [], pending_tickets: [], new_tickets: []\x7d` for every
backlog and every model, and its gateway-call trace is empty — neither the
Model Gateway nor the backlog is touched. -/
theorem C6_empty_short_circuit (b : Backlog) (model : Backlog → String) :
    ClassificationAgent.analyze_differences [] b model =
      (.ok emptyPartitionJson, []) := rfl

/-- Claim C7 is false on the code: extraction is not invariant under
formatting noise for every well-formed JSON text.  The top-level array
`[]` parses bare, but both regex fallbacks only recover brace-delimited
spans, so the same JSON inside a fenced block or inside prose makes the
chain fail (raising the malformed-response error). -/
theorem C7_counterexample :
    extractJson "[]" = some (.arr []) ∧
    extractJson "```json\n[]\n```" = none ∧
    extractJson "Here is the JSON: [] hope it helps" = none :=
  ⟨rfl, rfl, rfl⟩

/-- Claim C7 (amended): formatting invariance holds for object-shaped
payloads.  If the bare text parses to a value and is brace-delimited
(starts with `\x7b`, ends with `\x7d`, no backquote inside), then wrapping it
in a ```json fence yields the same extracted value, and so does
surrounding it with prose that contains no braces or backquotes and does
not make the whole text parse directly.  Non-object payloads (for example
a top-level array) lose this invariance — see the counterexample. -/
theorem C7_amended (t p1 p2 : String) (v : Json)
    (hparse : jsonParse t = some v)
    (hhead : t.data.head? = some '{') (hlast : t.data.getLast? = some '}')
    (hnbq : ∀ c ∈ t.data, c ≠ backquoteChar)
    (hp1 : ∀ c ∈ p1.data, (c = '{' → False) ∧ (c = '}' → False) ∧ c ≠ backquoteChar)
    (hp2 : ∀ c ∈ p2.data, (c = '{' → False) ∧ (c = '}' → False) ∧ c ≠ backquoteChar)
    (hdir : jsonParse (p1 ++ t ++ p2) = none) :
    extractJson t = some v ∧
    extractJson ("```json\n" ++ t ++ "\n```") = some v ∧
    extractJson (p1 ++ t ++ p2) = some v :=
  ⟨extractJson_of_parse t v hparse,
   extractJson_fenced t v hparse hhead hlast hnbq,
   extractJson_prose p1 t p2 v hparse hhead hlast hnbq hp1 hp2 hdir⟩

/-- Claim C7 (amended) at the object `\x7b"a": 1\x7d` under all three
wrappings. -/
theorem C7_amended_witness :
    extractJson "\x7b\"a\": 1\x7d" = some (.obj [("a", .num 1)]) ∧
    extractJson ("```json\n" ++ "\x7b\"a\": 1\x7d" ++ "\n```") =
      some (.obj [("a", .num 1)]) ∧
    extractJson ("Result: " ++ "\x7b\"a\": 1\x7d" ++ " (thanks)") =
      some (.obj [("a", .num 1)]) :=
  C7_amended "\x7b\"a\": 1\x7d" "Result: " " (thanks)" _ rfl rfl rfl
    (by decide) (by decide) (by decide) rfl

/-- Claim C8 is false on the code in its skipped-not-counted part: a
resolved entry whose ticket id does not exist is a no-op on the backlog
and does not abort later entries, but the gateway's not-found error dict
is truthy, so it is appended to — and counted in — the results list as if
it were a successful mutation (and the later `UI-001` entry still ran and
set the status string `"Done"`). -/
theorem C8_counterexample :
    update_resolved_tickets [{ ticket_id := some "UI-999" }] [ticketUI1] =
      ([UpdateResult.err "Ticket UI-999 not found"], [ticketUI1]) ∧
    (execute_actions { backlog := [ticketUI1], minorLog := [] }
      { resolved_tickets := [{ ticket_id := some "UI-999" }, { ticket_id := some "UI-001" }] }).2 =
      some { resolved_tickets := [.err "Ticket UI-999 not found", .ok "UI-001" "Done"] } ∧
    ((execute_actions { backlog := [ticketUI1], minorLog := [] }
      { resolved_tickets := [{ ticket_id := some "UI-999" }, { ticket_id := some "UI-001" }] }).1).backlog =
      [{ ticketUI1 with status := "Done" }] :=
  ⟨rfl, rfl, rfl⟩

/-- Claim C8 (amended): for every `resolved_tickets` entry with a truthy
ticket id, the named existing tickets get the status string `"Done"`
(tickets named by no entry are untouched), a missing id leaves the backlog
unchanged and does not abort the remaining entries — but every processed
entry, including a missing id, contributes its gateway result dict to the
returned list, so missing ids are counted there (with the not-found error
record), not skipped. -/
theorem C8_amended (entries : List TicketEntry) (b : Backlog) :
    (∀ t ∈ b, (∃ e ∈ entries, truthyStr e.ticket_id = some t.id) →
      { t with status := "Done" } ∈ (update_resolved_tickets entries b).2) ∧
    (∀ t ∈ b, (∀ e ∈ entries, truthyStr e.ticket_id ≠ some t.id) →
      t ∈ (update_resolved_tickets entries b).2) ∧
    (update_resolved_tickets entries b).1.length =
      (entryWrites "Done" entries).length ∧
    (∀ tid : String, (∃ e ∈ entries, truthyStr e.ticket_id = some tid) →
      tid ∉ b.map (fun t => t.id) →
      UpdateResult.err ("Ticket " ++ tid ++ " not found") ∈
        (update_resolved_tickets entries b).1) :=
  ⟨fun t ht hm => update_resolved_done_mem entries b t ht hm,
   fun t ht hn => update_resolved_untouched entries b t ht hn,
   update_resolved_results_len entries b,
   fun tid hm hn => update_resolved_err_mem entries b tid hm hn⟩

/-- Claim C8 (amended) at a backlog holding only `UI-001`, processing one
existing and one missing entry. -/
theorem C8_amended_witness :
    { ticketUI1 with status := "Done" } ∈
      (update_resolved_tickets
        [{ ticket_id := some "UI-001" }, { ticket_id := some "UI-999" }] [ticketUI1]).2 ∧
    (update_resolved_tickets
      [{ ticket_id := some "UI-001" }, { ticket_id := some "UI-999" }] [ticketUI1]).1.length = 2 ∧
    UpdateResult.err "Ticket UI-999 not found" ∈
      (update_resolved_tickets
        [{ ticket_id := some "UI-001" }, { ticket_id := some "UI-999" }] [ticketUI1]).1 := by
  have h := C8_amended
    [{ ticket_id := some "UI-001" }, { ticket_id := some "UI-999" }] [ticketUI1]
  refine ⟨h.1 ticketUI1 (by decide)
    ⟨{ ticket_id := some "UI-001" }, by decide, by decide⟩, ?_, ?_⟩
  · exact (h.2.2.1).trans (by decide)
  · exact h.2.2.2 "UI-999"
      ⟨{ ticket_id := some "UI-999" }, by decide, by decide⟩ (by decide)

/-- Claim C9 is confirmed: `update_ticket_status` stores any status string
verbatim when the ticket exists; the five-value enum of `constants.py` is
exactly `todo/in_progress/in_review/on_hold/done`, which contains neither
`"Done"` nor `"Changes Requested"` — the strings the orchestrator's
resolved and needing-work paths actually write — so the enum is not an
invariant the orchestrator preserves. -/
theorem C9_no_validation (b : Backlog) (tid s : String) (t : Ticket)
    (ht : t ∈ b) (hid : t.id = tid) (htid : tid ≠ "") :
    { t with status := s } ∈ (update_ticket_status b tid s).1 ∧
    VALID_STATUSES = ["todo", "in_progress", "in_review", "on_hold", "done"] ∧
    "Done" ∉ VALID_STATUSES ∧ "Changes Requested" ∉ VALID_STATUSES ∧
    (update_resolved_tickets [{ ticket_id := some tid }] b).2 =
      (update_ticket_status b tid "Done").1 ∧
    (update_tickets_needing_work [{ ticket_id := some tid }] b).2 =
      (update_ticket_status b tid "Changes Requested").1 := by
  refine ⟨?_, rfl, by decide, by decide, ?_, ?_⟩
  · rw [update_ticket_status_backlog]
    exact List.mem_map.mpr ⟨t, ht, by rw [if_pos hid]⟩
  · show (update_resolved_tickets
      ({ ticket_id := some tid } :: []) b).2 = _
    unfold update_resolved_tickets
    simp only [truthyStr, if_neg htid]
    rfl
  · show (update_tickets_needing_work
      ({ ticket_id := some tid } :: []) b).2 = _
    unfold update_tickets_needing_work
    simp only [truthyStr, if_neg htid]
    rfl

/-- Claim C9 at `UI-001` and the arbitrary status string `"garbage"`. -/
theorem C9_no_validation_witness :
    ({ ticketUI1 with status := "garbage" } : Ticket) ∈
      (update_ticket_status [ticketUI1] "UI-001" "garbage").1 ∧
    "Done" ∉ VALID_STATUSES := by
  have h := C9_no_validation [ticketUI1] "UI-001" "garbage" ticketUI1
    (by decide) rfl (by decide)
  exact ⟨h.1, h.2.2.1⟩

/-- Claim C10 is confirmed: a new-issue entry whose severity is neither
`"critical"` nor `"minor"` is silently discarded — inserting it anywhere
into the partition's new-issue list changes nothing: not the backlog, not
the local minor-issues log, and not the execution report. -/
theorem C10_discard (st : ExecState) (a : Analysis) (l1 l2 : List NewIssue)
    (i : NewIssue)
    (h1 : i.severity ≠ some "critical") (h2 : i.severity ≠ some "minor") :
    execute_actions st { a with new_issues := l1 ++ i :: l2 } =
      execute_actions st { a with new_issues := l1 ++ l2 } := by
  unfold execute_actions
  simp only
  by_cases hl : (l1 ++ l2).isEmpty = true
  · obtain ⟨he1, he2⟩ := List.append_eq_nil.mp (List.isEmpty_iff.mp hl)
    subst he1
    subst he2
    simp only [List.nil_append]
    rw [show (([i] : List NewIssue)).isEmpty = false from rfl]
    rw [show (([] : List NewIssue)).isEmpty = true from rfl]
    simp only [Bool.false_eq_true, if_false, if_true]
    have hc : ∀ b : Backlog, create_tickets_for_critical_issues [i] b =
        (b, Except.ok []) := by
      intro b
      have h := create_skip i h1 [] [] b
      simpa using h
    have hm : minorEntries [i] = [] := by
      unfold minorEntries
      rw [show ([i] : List NewIssue) = [] ++ i :: [] from rfl,
        filter_minor_skip i h2 [] []]
      rfl
    have hf : List.filter (fun j => j.severity = some "minor") ([i] : List NewIssue) = [] := by
      rw [show ([i] : List NewIssue) = [] ++ i :: [] from rfl,
        filter_minor_skip i h2 [] []]
      rfl
    simp only [hc, hm, hf, List.append_nil, List.length_nil]
  · have hne1 : (l1 ++ i :: l2).isEmpty = false := by
      cases l1 with
      | nil => rfl
      | cons x xs => rfl
    have hne2 : (l1 ++ l2).isEmpty = false := by
      rw [Bool.eq_false_iff]
      exact hl
    simp only [hne1, hne2, Bool.false_eq_true, if_false]
    rw [create_skip i h1 l1 l2, minorEntries_skip i h2 l1 l2,
      filter_minor_skip i h2 l1 l2]

/-- Claim C10 at a partition holding only one high-severity issue: its
application equals the application of the empty partition. -/
theorem C10_discard_witness :
    execute_actions ({} : ExecState)
      { new_issues := [{ severity := some "high" }] } =
      execute_actions ({} : ExecState) ({} : Analysis) :=
  C10_discard {} {} [] [] { severity := some "high" } (by decide) (by decide)

end UIRA
